import Mathlib

/-!
Verification development for the O365 mail-forwarder (mail_reader.py, main.py).

The two Python modules are shallowly embedded as pure Lean functions:
timestamps are naturals ordered like ISO8601 strings, the Graph server is
modelled by its documented query semantics (filter / orderby / top), network
and SMTP failures are injected through explicit fault parameters, and every
side effect of a cycle is recorded in an event trace.
-/

namespace O365Mail

/-- A message summary as returned by the Graph messages query with
select id,subject,from,toRecipients,receivedDateTime,sender,hasAttachments,isRead,bodyPreview.
The sender field models from.emailAddress.address. -/
structure Message where
  id : String
  subject : String
  sender : String
  receivedDateTime : Nat
  hasAttachments : Bool
  deriving Repr, DecidableEq

/-- The record persisted in the tracking file .last_email.json by
save_last_email_timestamp (mail_reader.py lines 145-152). -/
structure Cursor where
  last_received_datetime : Nat
  last_message_id : String
  last_subject : String
  last_from : String
  last_updated : Nat
  deriving Repr, DecidableEq

/-- Contents of the tracking file: a just-truncated, unparseable file, or a
completed record. -/
inductive TrackContent where
  | empty
  | record (c : Cursor)
  deriving Repr, DecidableEq

/-- File-system operations performed on the tracking file. -/
inductive TrackOp where
  | truncate
  | writeRecord (c : Cursor)
  deriving Repr, DecidableEq

/-- Effect of one tracking-file operation on the file (none means absent). -/
def applyTrackOp : Option TrackContent → TrackOp → Option TrackContent
  | _, TrackOp.truncate => some TrackContent.empty
  | _, TrackOp.writeRecord c => some (TrackContent.record c)

/-- Apply a sequence of tracking-file operations. -/
def applyTrackOps (fs : Option TrackContent) (ops : List TrackOp) : Option TrackContent :=
  ops.foldl applyTrackOp fs

/-- The record written by save_last_email_timestamp for message m at time now:
receivedDateTime, id, subject, from-address of the message, plus the wall clock. -/
def mkCursor (m : Message) (now : Nat) : Cursor :=
  { last_received_datetime := m.receivedDateTime
    last_message_id := m.id
    last_subject := m.subject
    last_from := m.sender
    last_updated := now }

/-- File-system behaviour of save_last_email_timestamp (mail_reader.py lines
154-155): opening the tracking file in mode w truncates it in place, then
json.dump writes the record. There is no temporary file and no rename. -/
def save_track_ops (m : Message) (now : Nat) : List TrackOp :=
  [TrackOp.truncate, TrackOp.writeRecord (mkCursor m now)]

/-- load_last_email_timestamp (mail_reader.py lines 120-136): (None, None) when
the file is absent or unparseable, otherwise the stored timestamp and id. -/
def load_last_email_timestamp : Option TrackContent → Option Nat × Option String
  | none => (none, none)
  | some TrackContent.empty => (none, none)
  | some (TrackContent.record c) => (some c.last_received_datetime, some c.last_message_id)

/-- Python truthiness of an optional string: None and the empty string are falsy. -/
def pyTruthyStr : Option String → Bool
  | none => false
  | some s => !s.isEmpty

/-- The request parameters built by get_new_messages (mail_reader.py lines
192-201): top, orderby receivedDateTime desc, and the strict
receivedDateTime-gt filter when a previous timestamp is stored. -/
structure QueryParams where
  top : Nat
  orderbyDesc : Bool
  filterGt : Option Nat
  deriving Repr, DecidableEq

/-- Parameter construction from the loaded timestamp (mail_reader.py lines 192-201). -/
def buildParams (last_timestamp : Option Nat) (limit : Nat) : QueryParams :=
  { top := limit, orderbyDesc := true, filterGt := last_timestamp }

/-- Insert a message into a list kept sorted by receivedDateTime descending. -/
def insertDesc (m : Message) : List Message → List Message
  | [] => [m]
  | x :: xs =>
      if x.receivedDateTime ≤ m.receivedDateTime then m :: x :: xs
      else x :: insertDesc m xs

/-- Sort a list of messages by receivedDateTime descending (the server
orderby receivedDateTime desc). -/
def sortDesc : List Message → List Message
  | [] => []
  | x :: xs => insertDesc x (sortDesc xs)

/-- Graph server semantics for the messages query: apply the strict
receivedDateTime-gt filter when present, order newest first, return at most
top entries. -/
def serverRespond (mailbox : List Message) (p : QueryParams) : List Message :=
  let filtered := match p.filterGt with
    | none => mailbox
    | some ts => mailbox.filter (fun m => ts < m.receivedDateTime)
  let sorted := if p.orderbyDesc then sortDesc filtered else filtered
  sorted.take p.top

/-- The client-side id filter of get_new_messages (mail_reader.py lines
214-216): when a previous message id is stored (and truthy) and the response
is non-empty, drop every message bearing that id. -/
def dropLastId : Option String → List Message → List Message
  | some l, resp =>
      if !l.isEmpty && !resp.isEmpty then resp.filter (fun m => m.id != l) else resp
  | none, resp => resp

/-- Response processing in get_new_messages (mail_reader.py lines 212-227),
operating on the decoded response list exactly as the code does: apply the
client-side id filter; if any messages remain, save the first (newest) one to
the tracking file and return them. -/
def process_response (tracking : Option TrackContent) (resp : List Message) (now : Nat) :
    Option TrackContent × List Message :=
  let messages := dropLastId (load_last_email_timestamp tracking).2 resp
  match messages with
  | [] => (tracking, [])
  | m0 :: rest => (applyTrackOps tracking (save_track_ops m0 now), m0 :: rest)

/-- get_new_messages without the token and transport layer: load the cursor,
build the query, let the server respond, then process the response. -/
def get_new_messages (tracking : Option TrackContent) (mailbox : List Message)
    (now : Nat) (limit : Nat) : Option TrackContent × List Message :=
  process_response tracking
    (serverRespond mailbox (buildParams (load_last_email_timestamp tracking).1 limit)) now

/-- Observable actions of one polling cycle: token acquisition, the query
request, the tracking-file save, and the per-message display, attachment
listing and SMTP forwarding steps of main.py. -/
inductive Event where
  | acquireToken
  | queryRequest (p : QueryParams)
  | cursorSave (c : Cursor)
  | display (id : String)
  | listAttachments (id : String)
  | attListFailLogged (id : String)
  | fetchMime (id : String)
  | smtpConnect (host : String)
  | smtpStarttls
  | smtpLogin (user : String)
  | smtpSend (id : String)
  | forwardOk (id : String)
  | forwardFailLogged (id : String)
  deriving Repr, DecidableEq

/-- The module-level configuration of main.py (lines 36-54), read from the
environment once at import. -/
structure Config where
  ENABLE_SMTP_FORWARD : Bool
  SMTP_HOST : String
  SMTP_PORT : Nat
  SMTP_USERNAME : String
  SMTP_PASSWORD : String
  SMTP_USE_TLS : Bool
  SMTP_FROM : String
  SMTP_TO : List String
  LOOP_DELAY_SECONDS : Nat
  ENABLE_CONTINUOUS_LOOP : Bool
  deriving Repr, DecidableEq

/-- The list branch of normalize_recipients (main.py lines 57-60): keep the
non-empty addresses. -/
def normalize_recipients (value : List String) : List String :=
  value.filter (fun a => !a.isEmpty)

/-- Fault injection for the stages of one forward_message call. -/
structure ForwardFaults where
  mimeFails : Bool
  connectFails : Bool
  starttlsFails : Bool
  loginFails : Bool
  sendFails : Bool
  deriving Repr, DecidableEq

/-- No fault at any forwarding stage. -/
def noFaults : ForwardFaults :=
  { mimeFails := false, connectFails := false, starttlsFails := false
    loginFails := false, sendFails := false }

/-- Result of forward_message: silently skipped, delivered, or failed with the
failure caught and logged. -/
inductive FwdOutcome where
  | noop
  | ok
  | failLogged
  deriving Repr, DecidableEq

/-- forward_message (main.py lines 63-89): return immediately when forwarding
is disabled, no host is configured, the normalized recipient list is empty, or
the message has no id; otherwise fetch the raw MIME (errors caught and
logged), then connect, optionally starttls, optionally login, and send (errors
caught and logged). The trace lists the operations attempted, in order;
exceptions never escape. -/
def forward_message (cfg : Config) (ff : ForwardFaults) (msg : Message) :
    List Event × FwdOutcome :=
  let recipients := normalize_recipients cfg.SMTP_TO
  if !cfg.ENABLE_SMTP_FORWARD || cfg.SMTP_HOST.isEmpty || recipients.isEmpty then
    ([], FwdOutcome.noop)
  else if msg.id.isEmpty then ([], FwdOutcome.noop)
  else if ff.mimeFails then
    ([Event.fetchMime msg.id, Event.forwardFailLogged msg.id], FwdOutcome.failLogged)
  else
    let pre := [Event.fetchMime msg.id, Event.smtpConnect cfg.SMTP_HOST]
    if ff.connectFails then
      (pre ++ [Event.forwardFailLogged msg.id], FwdOutcome.failLogged)
    else
      let tls : List Event := if cfg.SMTP_USE_TLS then [Event.smtpStarttls] else []
      if cfg.SMTP_USE_TLS && ff.starttlsFails then
        (pre ++ tls ++ [Event.forwardFailLogged msg.id], FwdOutcome.failLogged)
      else
        let lgn : List Event :=
          if !cfg.SMTP_USERNAME.isEmpty then [Event.smtpLogin cfg.SMTP_USERNAME] else []
        if !cfg.SMTP_USERNAME.isEmpty && ff.loginFails then
          (pre ++ tls ++ lgn ++ [Event.forwardFailLogged msg.id], FwdOutcome.failLogged)
        else if ff.sendFails then
          (pre ++ tls ++ lgn ++ [Event.smtpSend msg.id, Event.forwardFailLogged msg.id],
            FwdOutcome.failLogged)
        else
          (pre ++ tls ++ lgn ++ [Event.smtpSend msg.id, Event.forwardOk msg.id],
            FwdOutcome.ok)

/-- Outcome of the token-endpoint request made by get_access_token: a transport
error (the post raises), or a decoded payload whose access_token field may be
absent. -/
inductive AuthOutcome where
  | netErr
  | payload (tok : Option String)
  deriving Repr, DecidableEq

/-- get_access_token (mail_reader.py lines 27-59): on a transport error the
stored token is unchanged and the exception propagates; otherwise the payload
token is stored, and a missing or empty token raises after being stored.
Returns the new stored token and whether the call succeeded. -/
def get_access_token (tok : Option String) (a : AuthOutcome) : Option String × Bool :=
  match a with
  | AuthOutcome.netErr => (tok, false)
  | AuthOutcome.payload t => (t, pyTruthyStr t)

/-- The guard at the head of every mailbox operation (mail_reader.py lines
177-178, main.py lines 96-97): acquire a token only when the held one is
Python-falsy. Returns the new token, success, and the trace of acquisitions. -/
def ensure_token (tok : Option String) (a : AuthOutcome) :
    Option String × Bool × List Event :=
  if pyTruthyStr tok then (tok, true, [])
  else
    let r := get_access_token tok a
    (r.1, r.2, [Event.acquireToken])

/-- The mutable state of an O365MailReader together with the tracking file it
owns: the held access token and the tracking-file contents. -/
structure ReaderState where
  access_token : Option String
  tracking : Option TrackContent
  deriving Repr, DecidableEq

/-- get_new_messages (mail_reader.py lines 163-233) with the token guard and
the transport modelled: ensure a token (failure propagates), build the
parameters from the loaded cursor, issue the request (failure propagates after
logging), then process the response, saving the newest message when any
remain. -/
def get_new_messages_run (s : ReaderState) (auth : AuthOutcome) (queryFails : Bool)
    (mailbox : List Message) (now limit : Nat) :
    ReaderState × Except Unit (List Message) × List Event :=
  let et := ensure_token s.access_token auth
  let s1 : ReaderState := { s with access_token := et.1 }
  if et.2.1 then
    let params := buildParams (load_last_email_timestamp s1.tracking).1 limit
    if queryFails then (s1, Except.error (), et.2.2 ++ [Event.queryRequest params])
    else
      let r := process_response s1.tracking (serverRespond mailbox params) now
      let saveEv : List Event := match r.2 with
        | [] => []
        | m0 :: _ => [Event.cursorSave (mkCursor m0 now)]
      ({ s1 with tracking := r.1 }, Except.ok r.2,
        et.2.2 ++ [Event.queryRequest params] ++ saveEv)
  else (s1, Except.error (), et.2.2)

/-- Per-cycle fault injection: the token-endpoint outcome, whether the
messages request fails, and per-message faults for attachment listing and
forwarding. -/
structure CycleFaults where
  auth : AuthOutcome
  queryFails : Bool
  attFails : String → Bool
  fwd : String → ForwardFaults

/-- Per-message processing in check_for_new_emails (main.py lines 103-126):
display the message, list attachments when flagged and an id exists (a listing
failure is caught and degrades to a generic indicator), then forward
immediately. -/
def process_message (cfg : Config) (attFail : Bool) (ff : ForwardFaults)
    (msg : Message) : List Event :=
  let attEv : List Event :=
    if msg.hasAttachments then
      if msg.id.isEmpty then []
      else if attFail then [Event.listAttachments msg.id, Event.attListFailLogged msg.id]
      else [Event.listAttachments msg.id]
    else []
  Event.display msg.id :: (attEv ++ (forward_message cfg ff msg).1)

/-- Concatenate per-message traces. -/
def flatTraces : List (List Event) → List Event
  | [] => []
  | t :: ts => t ++ flatTraces ts

/-- check_for_new_emails (main.py lines 92-132): ensure a token, get the new
messages, then display and forward each; any exception from the token or the
query step is caught here and the cycle yields an empty batch. -/
def check_for_new_emails (cfg : Config) (flt : CycleFaults) (mailbox : List Message)
    (s : ReaderState) (now : Nat) : ReaderState × List Message × List Event :=
  let et := ensure_token s.access_token flt.auth
  let s1 : ReaderState := { s with access_token := et.1 }
  if et.2.1 then
    let r := get_new_messages_run s1 flt.auth flt.queryFails mailbox now 50
    match r.2.1 with
    | Except.error _ => (r.1, [], et.2.2 ++ r.2.2)
    | Except.ok messages =>
        (r.1, messages,
          et.2.2 ++ r.2.2 ++
            flatTraces (messages.map (fun m =>
              process_message cfg (flt.attFails m.id) (flt.fwd m.id) m)))
  else (s1, [], et.2.2)

/-- Inputs of one cycle: its faults, the remote mailbox contents, and the wall
clock at save time. -/
structure CycleInput where
  flt : CycleFaults
  mailbox : List Message
  now : Nat

/-- Run a sequence of cycles of the main loop (main.py lines 145-158),
threading the reader state; returns the final state, the batch of each cycle,
and the concatenated trace. -/
def run_cycles (cfg : Config) (s : ReaderState) :
    List CycleInput → ReaderState × List (List Message) × List Event
  | [] => (s, [], [])
  | i :: rest =>
      let r := check_for_new_emails cfg i.flt i.mailbox s i.now
      let rr := run_cycles cfg r.1 rest
      (rr.1, r.2.1 :: rr.2.1, r.2.2 ++ rr.2.2)

/-- How the continuous loop ends: a KeyboardInterrupt (caught, counters
printed, clean return), or an unexpected exception escaping the loop. -/
inductive RunEnd where
  | interrupt
  | fatal
  deriving Repr, DecidableEq

/-- main (main.py lines 135-169): in continuous mode the loop runs the given
cycles and then terminates by the given ending, exit code 0 on interrupt and 1
on a fatal error; in single-pass mode the loop breaks after the first cycle
and exits 0. Returns (exit code, run count, new-email count, trace). -/
def main_run (cfg : Config) (s : ReaderState) (inputs : List CycleInput)
    (ending : RunEnd) : Nat × Nat × Nat × List Event :=
  if cfg.ENABLE_CONTINUOUS_LOOP then
    let r := run_cycles cfg s inputs
    let code := match ending with
      | RunEnd.interrupt => 0
      | RunEnd.fatal => 1
    (code, inputs.length, (r.2.1.map List.length).sum, r.2.2)
  else
    match inputs with
    | [] => (0, 0, 0, [])
    | i :: _ =>
        let r := check_for_new_emails cfg i.flt i.mailbox s i.now
        (0, 1, r.2.1.length, r.2.2)

/-! Helper definitions for the theorems. -/

/-- Newest-first order on messages. -/
def geMsg (a b : Message) : Prop := b.receivedDateTime ≤ a.receivedDateTime

/-- The cursor timestamp currently persisted, when a valid record exists. -/
def trackTs : Option TrackContent → Option Nat
  | some (TrackContent.record c) => some c.last_received_datetime
  | _ => none

/-- Growth order on optional timestamps: a stored value never shrinks. -/
def tsLE (a b : Option Nat) : Prop := ∀ t, a = some t → ∃ u, b = some u ∧ t ≤ u

/-- Forwarding is actually configured: enabled, with a relay host and at least
one non-empty recipient. -/
def forwardingActive (cfg : Config) : Prop :=
  cfg.ENABLE_SMTP_FORWARD = true ∧ cfg.SMTP_HOST ≠ "" ∧ normalize_recipients cfg.SMTP_TO ≠ []

/-- A fault configuration that actually fires in forward_message under the
given configuration. -/
def effectiveFault (cfg : Config) (ff : ForwardFaults) : Bool :=
  ff.mimeFails || ff.connectFails || (cfg.SMTP_USE_TLS && ff.starttlsFails) ||
    (!cfg.SMTP_USERNAME.isEmpty && ff.loginFails) || ff.sendFails

/-- The token step of a cycle fails outright: no token held and the exchange
does not yield one. -/
def tokenFailure (s : ReaderState) (flt : CycleFaults) : Prop :=
  pyTruthyStr s.access_token = false ∧ (get_access_token s.access_token flt.auth).2 = false

/-! Concrete fixtures used by counterexamples and witnesses. -/

/-- A plain message without attachments. -/
def mW1 : Message :=
  { id := "m1", subject := "hello", sender := "alice@contoso.com",
    receivedDateTime := 100, hasAttachments := false }

/-- A newer message with attachments. -/
def mW2 : Message :=
  { id := "m2", subject := "report", sender := "bob@contoso.com",
    receivedDateTime := 200, hasAttachments := true }

/-- A message tied with the stored cursor timestamp but with a different id. -/
def mW3 : Message :=
  { id := "m3", subject := "tied", sender := "carol@contoso.com",
    receivedDateTime := 100, hasAttachments := false }

/-- A configuration with SMTP forwarding active. -/
def cfgW : Config :=
  { ENABLE_SMTP_FORWARD := true, SMTP_HOST := "relay.example.org", SMTP_PORT := 587,
    SMTP_USERNAME := "", SMTP_PASSWORD := "", SMTP_USE_TLS := true,
    SMTP_FROM := "monitor@example.org", SMTP_TO := ["ops@example.org"],
    LOOP_DELAY_SECONDS := 5, ENABLE_CONTINUOUS_LOOP := true }

/-- The same configuration with forwarding disabled. -/
def cfgWoff : Config := { cfgW with ENABLE_SMTP_FORWARD := false }

/-- A fault-free cycle whose token exchange grants a token. -/
def fltW : CycleFaults :=
  { auth := AuthOutcome.payload (some "token123"), queryFails := false,
    attFails := fun _ => false, fwd := fun _ => noFaults }

/-- Same as fltW but every SMTP send fails. -/
def fltWsend : CycleFaults := { fltW with fwd := fun _ => { noFaults with sendFails := true } }

/-- Same as fltW but the messages request fails. -/
def fltWq : CycleFaults := { fltW with queryFails := true }

/-- Fresh reader state: no token, no tracking file. -/
def sW0 : ReaderState := { access_token := none, tracking := none }

/-- A stored cursor at timestamp 100 for message m1. -/
def cW : Cursor :=
  { last_received_datetime := 100, last_message_id := "m1", last_subject := "hello",
    last_from := "alice@contoso.com", last_updated := 3 }

/-- Reader state holding a token and the cursor cW. -/
def sW1 : ReaderState :=
  { access_token := some "token123", tracking := some (TrackContent.record cW) }

/-- One cycle input over a mailbox holding only the newer message. -/
def inW1 : CycleInput := { flt := fltW, mailbox := [mW2], now := 7 }

/-- One cycle input over a mailbox holding both messages. -/
def inW2 : CycleInput := { flt := fltW, mailbox := [mW1, mW2], now := 9 }

/-! Basic lemmas. -/

lemma isEmpty_false_of_ne {s : String} (h : s ≠ "") : s.isEmpty = false := by
  cases he : s.isEmpty
  · rfl
  · exact absurd ((String.isEmpty_iff s).mp (by simp [he])) h

lemma mem_insertDesc {m a : Message} {l : List Message} :
    a ∈ insertDesc m l ↔ a = m ∨ a ∈ l := by
  induction l with
  | nil => simp [insertDesc]
  | cons x xs ih =>
      by_cases h : x.receivedDateTime ≤ m.receivedDateTime
      · simp [insertDesc, h]
      · simp [insertDesc, h, ih]
        tauto

lemma mem_sortDesc {a : Message} {l : List Message} : a ∈ sortDesc l ↔ a ∈ l := by
  induction l with
  | nil => simp [sortDesc]
  | cons x xs ih => simp [sortDesc, mem_insertDesc, ih]

lemma pairwise_insertDesc {m : Message} {l : List Message}
    (h : l.Pairwise geMsg) : (insertDesc m l).Pairwise geMsg := by
  induction l with
  | nil => simp [insertDesc]
  | cons x xs ih =>
      rcases List.pairwise_cons.mp h with ⟨hx, hxs⟩
      by_cases hc : x.receivedDateTime ≤ m.receivedDateTime
      · rw [insertDesc, if_pos hc]
        refine List.pairwise_cons.mpr ⟨?_, h⟩
        intro b hb
        rcases List.mem_cons.mp hb with hbx | hbxs
        · subst hbx; exact hc
        · exact le_trans (hx b hbxs) hc
      · rw [insertDesc, if_neg hc]
        refine List.pairwise_cons.mpr ⟨?_, ih hxs⟩
        intro b hb
        rcases mem_insertDesc.mp hb with hbm | hbxs
        · subst hbm; exact le_of_lt (lt_of_not_le hc)
        · exact hx b hbxs

lemma sortDesc_pairwise (l : List Message) : (sortDesc l).Pairwise geMsg := by
  induction l with
  | nil => simp [sortDesc]
  | cons x xs ih => exact pairwise_insertDesc ih

lemma mem_serverRespond {m : Message} {mailbox : List Message} {p : QueryParams}
    (h : m ∈ serverRespond mailbox p) :
    m ∈ mailbox ∧ ∀ ts, p.filterGt = some ts → ts < m.receivedDateTime := by
  rcases p with ⟨top, ob, fg⟩
  unfold serverRespond at h
  simp only at h
  have h2 := List.mem_of_mem_take h
  have h3 : m ∈ (match fg with
      | none => mailbox
      | some ts => mailbox.filter (fun m => decide (ts < m.receivedDateTime))) := by
    cases ob with
    | false => simpa using h2
    | true => exact mem_sortDesc.mp (by simpa using h2)
  cases fg with
  | none => exact ⟨h3, by intro ts hts; cases hts⟩
  | some ts =>
      rw [List.mem_filter] at h3
      refine ⟨h3.1, ?_⟩
      intro ts2 hts
      cases hts
      simpa using h3.2

/-- The response, once sorted and truncated by the server, is newest-first;
so is every sublist the client keeps. -/
lemma serverRespond_pairwise (mailbox : List Message) (p : QueryParams)
    (hob : p.orderbyDesc = true) : (serverRespond mailbox p).Pairwise geMsg := by
  rcases p with ⟨top, ob, fg⟩
  unfold serverRespond
  simp only at hob
  subst hob
  simp only [if_pos rfl]
  exact List.Pairwise.sublist (List.take_sublist _ _) (sortDesc_pairwise _)

lemma dropLastId_subset (lid : Option String) (resp : List Message) :
    dropLastId lid resp ⊆ resp := by
  cases lid with
  | none => exact fun _ h => h
  | some l =>
      by_cases hc : (!l.isEmpty && !resp.isEmpty) = true
      · rw [dropLastId, if_pos hc]; exact List.filter_subset' _
      · rw [dropLastId, if_neg hc]; exact fun _ h => h

lemma dropLastId_pairwise {lid : Option String} {resp : List Message}
    (h : resp.Pairwise geMsg) : (dropLastId lid resp).Pairwise geMsg := by
  cases lid with
  | none => exact h
  | some l =>
      by_cases hc : (!l.isEmpty && !resp.isEmpty) = true
      · rw [dropLastId, if_pos hc]; exact h.filter _
      · rw [dropLastId, if_neg hc]; exact h

lemma mem_dropLastId_ne {l : String} {resp : List Message} {m : Message}
    (hl : l ≠ "") (h : m ∈ dropLastId (some l) resp) : m.id ≠ l := by
  cases resp with
  | nil => simp [dropLastId] at h
  | cons r rs =>
      rw [dropLastId, if_pos (by simp [isEmpty_false_of_ne hl])] at h
      rcases List.mem_filter.mp h with ⟨_, hne⟩
      simpa using hne

lemma removed_by_dropLastId {lid : Option String} {resp : List Message} {m : Message}
    (hm : m ∈ resp) (h : m ∉ dropLastId lid resp) : lid = some m.id := by
  cases lid with
  | none => exact absurd hm h
  | some l =>
      by_cases hc : (!l.isEmpty && !resp.isEmpty) = true
      · rw [dropLastId, if_pos hc] at h
        have hid : ¬ ((m.id != l) = true) := fun hne => h (List.mem_filter.mpr ⟨hm, hne⟩)
        simp only [bne_iff_ne, ne_eq, not_not] at hid
        rw [hid]
      · rw [dropLastId, if_neg hc] at h
        exact absurd hm h

lemma applyTrackOps_save (fs : Option TrackContent) (m : Message) (now : Nat) :
    applyTrackOps fs (save_track_ops m now) = some (TrackContent.record (mkCursor m now)) := rfl

lemma process_response_snd (tracking : Option TrackContent) (resp : List Message) (now : Nat) :
    (process_response tracking resp now).2
      = dropLastId (load_last_email_timestamp tracking).2 resp := by
  unfold process_response
  cases h : dropLastId (load_last_email_timestamp tracking).2 resp <;> simp [h]

lemma process_response_step (tracking : Option TrackContent) (resp : List Message) (now : Nat) :
    ((process_response tracking resp now).1 = tracking ∧
        (process_response tracking resp now).2 = []) ∨
    (∃ m0 rest, (process_response tracking resp now).2 = m0 :: rest ∧
        (process_response tracking resp now).1
          = some (TrackContent.record (mkCursor m0 now))) := by
  unfold process_response
  cases h : dropLastId (load_last_email_timestamp tracking).2 resp with
  | nil => left; simp [h]
  | cons m0 rest =>
      right
      exact ⟨m0, rest, by simp [h], by simp [h, applyTrackOps_save]⟩

lemma get_new_messages_mem {tracking : Option TrackContent} {mailbox : List Message}
    {now limit : Nat} {m : Message}
    (h : m ∈ (get_new_messages tracking mailbox now limit).2) :
    m ∈ mailbox ∧ ∀ c, tracking = some (TrackContent.record c) →
      c.last_received_datetime < m.receivedDateTime := by
  unfold get_new_messages at h
  rw [process_response_snd] at h
  have hresp := dropLastId_subset _ _ h
  have hsv := mem_serverRespond hresp
  refine ⟨hsv.1, ?_⟩
  intro c hc
  refine hsv.2 c.last_received_datetime ?_
  rw [hc]
  rfl

lemma get_new_messages_step (tracking : Option TrackContent) (mailbox : List Message)
    (now limit : Nat) :
    ((get_new_messages tracking mailbox now limit).1 = tracking ∧
        (get_new_messages tracking mailbox now limit).2 = []) ∨
    (∃ m0 rest, (get_new_messages tracking mailbox now limit).2 = m0 :: rest ∧
        (get_new_messages tracking mailbox now limit).1
          = some (TrackContent.record (mkCursor m0 now))) := by
  unfold get_new_messages
  exact process_response_step _ _ _

lemma get_new_messages_pairwise (tracking : Option TrackContent) (mailbox : List Message)
    (now limit : Nat) :
    ((get_new_messages tracking mailbox now limit).2).Pairwise geMsg := by
  unfold get_new_messages
  rw [process_response_snd]
  exact dropLastId_pairwise (serverRespond_pairwise _ _ rfl)

lemma tsLE_refl (a : Option Nat) : tsLE a a :=
  fun t ht => ⟨t, ht, le_refl t⟩

lemma tsLE_trans {a b c : Option Nat} (h1 : tsLE a b) (h2 : tsLE b c) : tsLE a c := by
  intro t ht
  rcases h1 t ht with ⟨u, hu, htu⟩
  rcases h2 u hu with ⟨v, hv, huv⟩
  exact ⟨v, hv, le_trans htu huv⟩

lemma trackTs_mono_get (tracking : Option TrackContent) (mailbox : List Message)
    (now limit : Nat) :
    tsLE (trackTs tracking) (trackTs (get_new_messages tracking mailbox now limit).1) := by
  intro t ht
  rcases get_new_messages_step tracking mailbox now limit with ⟨h1, _⟩ | ⟨m0, rest, h2, h1⟩
  · exact ⟨t, by rw [h1]; exact ht, le_refl t⟩
  · have hc : ∃ c, tracking = some (TrackContent.record c) ∧ c.last_received_datetime = t := by
      cases tracking with
      | none => cases ht
      | some tc =>
          cases tc with
          | empty => cases ht
          | record c => exact ⟨c, rfl, Option.some.inj ht⟩
    rcases hc with ⟨c, hceq, hct⟩
    have hm : m0 ∈ (get_new_messages tracking mailbox now limit).2 := by
      rw [h2]; exact List.mem_cons_self _ _
    have hlt := (get_new_messages_mem hm).2 c hceq
    refine ⟨m0.receivedDateTime, by rw [h1]; rfl, ?_⟩
    rw [← hct]
    exact le_of_lt hlt

/-! Token and cycle lemmas. -/

lemma ensure_ok {tok : Option String} {a : AuthOutcome}
    (h : (ensure_token tok a).2.1 = true) : pyTruthyStr (ensure_token tok a).1 = true := by
  unfold ensure_token at h ⊢
  by_cases hp : pyTruthyStr tok = true
  · rw [if_pos hp]; exact hp
  · rw [if_neg hp] at h ⊢
    cases a with
    | netErr => simp [get_access_token] at h
    | payload t => simpa [get_access_token] using h

lemma ensure_of_truthy {tok : Option String} {a : AuthOutcome}
    (h : pyTruthyStr tok = true) : ensure_token tok a = (tok, true, []) := by
  unfold ensure_token
  rw [if_pos h]

lemma ensure_trace {tok : Option String} {a : AuthOutcome} :
    (ensure_token tok a).2.2 = [] ∨ (ensure_token tok a).2.2 = [Event.acquireToken] := by
  unfold ensure_token
  by_cases hp : pyTruthyStr tok = true
  · rw [if_pos hp]; left; rfl
  · rw [if_neg hp]; right; rfl

lemma mem_flatTraces {e : Event} {ts : List (List Event)} :
    e ∈ flatTraces ts ↔ ∃ t ∈ ts, e ∈ t := by
  induction ts with
  | nil => simp [flatTraces]
  | cons t ts ih => simp [flatTraces, ih]

/-- Full characterisation of check_for_new_emails on the success path: the
token step succeeds and the query does not fail. -/
lemma check_success (cfg : Config) (flt : CycleFaults) (mailbox : List Message)
    (s : ReaderState) (now : Nat)
    (hok : (ensure_token s.access_token flt.auth).2.1 = true)
    (hq : flt.queryFails = false) :
    check_for_new_emails cfg flt mailbox s now
      = ({ access_token := (ensure_token s.access_token flt.auth).1,
           tracking := (get_new_messages s.tracking mailbox now 50).1 },
         (get_new_messages s.tracking mailbox now 50).2,
         (ensure_token s.access_token flt.auth).2.2 ++
           [Event.queryRequest (buildParams (load_last_email_timestamp s.tracking).1 50)] ++
           (match (get_new_messages s.tracking mailbox now 50).2 with
             | [] => []
             | m0 :: _ => [Event.cursorSave (mkCursor m0 now)]) ++
           flatTraces ((get_new_messages s.tracking mailbox now 50).2.map (fun m =>
             process_message cfg (flt.attFails m.id) (flt.fwd m.id) m))) := by
  have hpt := ensure_ok hok
  have hin := ensure_of_truthy (a := flt.auth) hpt
  simp only [check_for_new_emails, get_new_messages_run, hok, if_true, hin, hq,
    Bool.false_eq_true, if_false, List.nil_append, get_new_messages]
  cases hmsg : (process_response s.tracking
      (serverRespond mailbox (buildParams (load_last_email_timestamp s.tracking).1 50)) now).2 with
  | nil => simp [hmsg, List.append_assoc]
  | cons m0 rest => simp [hmsg, List.append_assoc]

lemma bool_eq_false {b : Bool} (h : ¬ b = true) : b = false := by
  cases b
  · rfl
  · exact absurd rfl h

/-- check_for_new_emails when the token step fails outright: the exception is
caught and the batch is empty. -/
lemma check_token_fail (cfg : Config) (flt : CycleFaults) (mailbox : List Message)
    (s : ReaderState) (now : Nat)
    (h : (ensure_token s.access_token flt.auth).2.1 = false) :
    check_for_new_emails cfg flt mailbox s now
      = ({ access_token := (ensure_token s.access_token flt.auth).1, tracking := s.tracking },
         [], (ensure_token s.access_token flt.auth).2.2) := by
  simp only [check_for_new_emails, h, Bool.false_eq_true, if_false]

/-- check_for_new_emails when the messages request fails: the exception is
caught and the batch is empty, the tracking file untouched. -/
lemma check_query_fail (cfg : Config) (flt : CycleFaults) (mailbox : List Message)
    (s : ReaderState) (now : Nat)
    (hok : (ensure_token s.access_token flt.auth).2.1 = true)
    (hq : flt.queryFails = true) :
    check_for_new_emails cfg flt mailbox s now
      = ({ access_token := (ensure_token s.access_token flt.auth).1, tracking := s.tracking },
         [], (ensure_token s.access_token flt.auth).2.2 ++
           [Event.queryRequest (buildParams (load_last_email_timestamp s.tracking).1 50)]) := by
  have hpt := ensure_ok hok
  have hin := ensure_of_truthy (a := flt.auth) hpt
  simp only [check_for_new_emails, get_new_messages_run, hok, if_true, hin, hq,
    List.nil_append]

lemma check_tracking_cases (cfg : Config) (flt : CycleFaults) (mailbox : List Message)
    (s : ReaderState) (now : Nat) :
    (check_for_new_emails cfg flt mailbox s now).1.tracking = s.tracking ∨
    (check_for_new_emails cfg flt mailbox s now).1.tracking
      = (get_new_messages s.tracking mailbox now 50).1 := by
  by_cases hok : (ensure_token s.access_token flt.auth).2.1 = true
  · by_cases hq : flt.queryFails = true
    · left; rw [check_query_fail cfg flt mailbox s now hok hq]
    · right; rw [check_success cfg flt mailbox s now hok (bool_eq_false hq)]
  · left; rw [check_token_fail cfg flt mailbox s now (bool_eq_false hok)]

lemma trackTs_some {tracking : Option TrackContent} {t : Nat}
    (h : trackTs tracking = some t) :
    ∃ c, tracking = some (TrackContent.record c) ∧ c.last_received_datetime = t := by
  cases tracking with
  | none => cases h
  | some tc =>
      cases tc with
      | empty => cases h
      | record c => exact ⟨c, rfl, Option.some.inj h⟩

lemma trackTs_mono_check (cfg : Config) (flt : CycleFaults) (mailbox : List Message)
    (s : ReaderState) (now : Nat) :
    tsLE (trackTs s.tracking)
      (trackTs (check_for_new_emails cfg flt mailbox s now).1.tracking) := by
  rcases check_tracking_cases cfg flt mailbox s now with h | h
  · rw [h]; exact tsLE_refl _
  · rw [h]; exact trackTs_mono_get _ _ _ _

lemma trackTs_mono_run (cfg : Config) (inputs : List CycleInput) :
    ∀ s : ReaderState,
      tsLE (trackTs s.tracking) (trackTs (run_cycles cfg s inputs).1.tracking) := by
  induction inputs with
  | nil => intro s; exact tsLE_refl _
  | cons i rest ih =>
      intro s
      simp only [run_cycles]
      exact tsLE_trans (trackTs_mono_check cfg i.flt i.mailbox s i.now) (ih _)

lemma check_batch_mem {cfg : Config} {flt : CycleFaults} {mailbox : List Message}
    {s : ReaderState} {now : Nat} {m : Message}
    (h : m ∈ (check_for_new_emails cfg flt mailbox s now).2.1) :
    m ∈ (get_new_messages s.tracking mailbox now 50).2 := by
  by_cases hok : (ensure_token s.access_token flt.auth).2.1 = true
  · by_cases hq : flt.queryFails = true
    · rw [check_query_fail cfg flt mailbox s now hok hq] at h; simp at h
    · rw [check_success cfg flt mailbox s now hok (bool_eq_false hq)] at h
      simpa using h
  · rw [check_token_fail cfg flt mailbox s now (bool_eq_false hok)] at h; simp at h

/-- Every message of every batch produced from a state holding a valid cursor
is strictly newer than that cursor. -/
lemma run_batches_gt (cfg : Config) (inputs : List CycleInput) :
    ∀ (s : ReaderState) (t : Nat), trackTs s.tracking = some t →
      ∀ batch ∈ (run_cycles cfg s inputs).2.1, ∀ m ∈ batch, t < m.receivedDateTime := by
  induction inputs with
  | nil => intro s t ht batch hb; simp [run_cycles] at hb
  | cons i rest ih =>
      intro s t ht batch hb m hm
      simp only [run_cycles] at hb
      rcases List.mem_cons.mp hb with hb1 | hb2
      · subst hb1
        have hmem := check_batch_mem hm
        rcases trackTs_some ht with ⟨c, hceq, hct⟩
        have hlt := (get_new_messages_mem hmem).2 c hceq
        rw [hct] at hlt
        exact hlt
      · rcases trackTs_mono_check cfg i.flt i.mailbox s i.now t ht with ⟨u, hu, htu⟩
        have hrec := ih (check_for_new_emails cfg i.flt i.mailbox s i.now).1 u hu batch hb2 m hm
        omega

/-! Forwarding-trace lemmas. -/

lemma forward_active_ne {cfg : Config} (hact : forwardingActive cfg) :
    (!cfg.ENABLE_SMTP_FORWARD || cfg.SMTP_HOST.isEmpty ||
      (normalize_recipients cfg.SMTP_TO).isEmpty) = false := by
  rcases hact with ⟨h1, h2, h3⟩
  rw [h1, isEmpty_false_of_ne h2, List.isEmpty_eq_false.mpr h3]
  rfl

lemma forward_fetch_mem (cfg : Config) (ff : ForwardFaults) (msg : Message)
    (hact : forwardingActive cfg) (hid : msg.id ≠ "") :
    Event.fetchMime msg.id ∈ (forward_message cfg ff msg).1 := by
  simp only [forward_message, forward_active_ne hact, Bool.false_eq_true, if_false,
    isEmpty_false_of_ne hid]
  repeat' split
  all_goals simp

lemma forward_fail_logged (cfg : Config) (ff : ForwardFaults) (msg : Message)
    (hact : forwardingActive cfg) (hid : msg.id ≠ "")
    (hf : effectiveFault cfg ff = true) :
    Event.forwardFailLogged msg.id ∈ (forward_message cfg ff msg).1 ∧
    (forward_message cfg ff msg).2 = FwdOutcome.failLogged := by
  unfold effectiveFault at hf
  simp only [forward_message, forward_active_ne hact, Bool.false_eq_true, if_false,
    isEmpty_false_of_ne hid]
  by_cases h1 : ff.mimeFails = true
  · simp [h1]
  · simp only [h1, Bool.false_eq_true, if_false]
    by_cases h2 : ff.connectFails = true
    · simp [h2]
    · simp only [h2, Bool.false_eq_true, if_false]
      by_cases h3 : (cfg.SMTP_USE_TLS && ff.starttlsFails) = true
      · simp [h3]
      · simp only [h3, Bool.false_eq_true, if_false]
        by_cases h4 : (!cfg.SMTP_USERNAME.isEmpty && ff.loginFails) = true
        · simp [h4]
        · simp only [h4, Bool.false_eq_true, if_false]
          by_cases h5 : ff.sendFails = true
          · simp [h5]
          · exfalso
            rw [bool_eq_false h1, bool_eq_false h2, bool_eq_false h3,
              bool_eq_false h4, bool_eq_false h5] at hf
            simp at hf

lemma acquire_not_in_forward (cfg : Config) (ff : ForwardFaults) (msg : Message) :
    Event.acquireToken ∉ (forward_message cfg ff msg).1 := by
  by_cases h0 : (!cfg.ENABLE_SMTP_FORWARD || cfg.SMTP_HOST.isEmpty ||
      (normalize_recipients cfg.SMTP_TO).isEmpty) = true
  · simp [forward_message, h0]
  · simp only [forward_message, bool_eq_false h0, Bool.false_eq_true, if_false]
    repeat' split
    all_goals simp

lemma acquire_not_in_process (cfg : Config) (af : Bool) (ff : ForwardFaults) (m : Message) :
    Event.acquireToken ∉ process_message cfg af ff m := by
  unfold process_message
  intro h
  simp only [List.mem_cons, List.mem_append] at h
  rcases h with h | h | h
  · simp at h
  · revert h
    repeat' split
    all_goals simp
  · exact acquire_not_in_forward cfg ff m h

lemma acquire_not_in_flat {cfg : Config} {flt : CycleFaults} {ms : List Message} :
    Event.acquireToken ∉ flatTraces (ms.map fun m =>
      process_message cfg (flt.attFails m.id) (flt.fwd m.id) m) := by
  intro h
  rcases mem_flatTraces.mp h with ⟨t, ht, he⟩
  rcases List.mem_map.mp ht with ⟨m, _, rfl⟩
  exact acquire_not_in_process _ _ _ _ he

lemma ensure_trace_falsy {tok : Option String} {a : AuthOutcome}
    (h : pyTruthyStr tok = false) : (ensure_token tok a).2.2 = [Event.acquireToken] := by
  unfold ensure_token
  rw [if_neg (by rw [h]; exact Bool.false_ne_true)]

/-- The trace of a cycle is the token-guard trace followed by events that are
never token acquisitions. -/
lemma check_trace_split (cfg : Config) (flt : CycleFaults) (mailbox : List Message)
    (s : ReaderState) (now : Nat) :
    ∃ rest, (check_for_new_emails cfg flt mailbox s now).2.2
        = (ensure_token s.access_token flt.auth).2.2 ++ rest ∧
      Event.acquireToken ∉ rest := by
  by_cases hok : (ensure_token s.access_token flt.auth).2.1 = true
  · by_cases hq : flt.queryFails = true
    · refine ⟨[Event.queryRequest (buildParams (load_last_email_timestamp s.tracking).1 50)],
        ?_, by simp⟩
      rw [check_query_fail cfg flt mailbox s now hok hq]
    · refine ⟨[Event.queryRequest (buildParams (load_last_email_timestamp s.tracking).1 50)] ++
        (match (get_new_messages s.tracking mailbox now 50).2 with
          | [] => []
          | m0 :: _ => [Event.cursorSave (mkCursor m0 now)]) ++
        flatTraces ((get_new_messages s.tracking mailbox now 50).2.map (fun m =>
          process_message cfg (flt.attFails m.id) (flt.fwd m.id) m)), ?_, ?_⟩
      · rw [check_success cfg flt mailbox s now hok (bool_eq_false hq)]
        simp [List.append_assoc]
      · intro h
        simp only [List.mem_append] at h
        rcases h with (h | h) | h
        · simp at h
        · revert h
          cases (get_new_messages s.tracking mailbox now 50).2 with
          | nil => simp
          | cons m0 rest => simp
        · exact acquire_not_in_flat h
  · exact ⟨[], by rw [check_token_fail cfg flt mailbox s now (bool_eq_false hok)]; simp,
      by simp⟩

lemma check_access_token (cfg : Config) (flt : CycleFaults) (mailbox : List Message)
    (s : ReaderState) (now : Nat) :
    (check_for_new_emails cfg flt mailbox s now).1.access_token
      = (ensure_token s.access_token flt.auth).1 := by
  by_cases hok : (ensure_token s.access_token flt.auth).2.1 = true
  · by_cases hq : flt.queryFails = true
    · rw [check_query_fail cfg flt mailbox s now hok hq]
    · rw [check_success cfg flt mailbox s now hok (bool_eq_false hq)]
  · rw [check_token_fail cfg flt mailbox s now (bool_eq_false hok)]

lemma check_state_eq (cfg : Config) (flt flt2 : CycleFaults) (mailbox : List Message)
    (s : ReaderState) (now : Nat)
    (ha : flt2.auth = flt.auth) (hqf : flt2.queryFails = flt.queryFails) :
    (check_for_new_emails cfg flt2 mailbox s now).1
      = (check_for_new_emails cfg flt mailbox s now).1 := by
  by_cases hok : (ensure_token s.access_token flt.auth).2.1 = true
  · by_cases hq : flt.queryFails = true
    · rw [check_query_fail cfg flt mailbox s now hok hq,
        check_query_fail cfg flt2 mailbox s now (by rw [ha]; exact hok) (by rw [hqf]; exact hq),
        ha]
    · rw [check_success cfg flt mailbox s now hok (bool_eq_false hq),
        check_success cfg flt2 mailbox s now (by rw [ha]; exact hok)
          (by rw [hqf]; exact bool_eq_false hq), ha]
  · rw [check_token_fail cfg flt mailbox s now (bool_eq_false hok),
      check_token_fail cfg flt2 mailbox s now (by rw [ha]; exact bool_eq_false hok), ha]

lemma check_batch_cons {cfg : Config} {flt : CycleFaults} {mailbox : List Message}
    {s : ReaderState} {now : Nat} {m0 : Message} {rest : List Message}
    (h : (check_for_new_emails cfg flt mailbox s now).2.1 = m0 :: rest) :
    (check_for_new_emails cfg flt mailbox s now).1.tracking
      = some (TrackContent.record (mkCursor m0 now)) := by
  by_cases hok : (ensure_token s.access_token flt.auth).2.1 = true
  · by_cases hq : flt.queryFails = true
    · rw [check_query_fail cfg flt mailbox s now hok hq] at h; cases h
    · rw [check_success cfg flt mailbox s now hok (bool_eq_false hq)] at h ⊢
      rcases get_new_messages_step s.tracking mailbox now 50 with ⟨_, h2⟩ | ⟨n0, nr, h2, h3⟩
      · simp only at h
        rw [h2] at h; cases h
      · simp only at h ⊢
        rw [h2] at h
        cases h
        rw [h3]
  · rw [check_token_fail cfg flt mailbox s now (bool_eq_false hok)] at h; cases h

lemma check_batch_pairwise (cfg : Config) (flt : CycleFaults) (mailbox : List Message)
    (s : ReaderState) (now : Nat) :
    ((check_for_new_emails cfg flt mailbox s now).2.1).Pairwise geMsg := by
  by_cases hok : (ensure_token s.access_token flt.auth).2.1 = true
  · by_cases hq : flt.queryFails = true
    · rw [check_query_fail cfg flt mailbox s now hok hq]; simp
    · rw [check_success cfg flt mailbox s now hok (bool_eq_false hq)]
      exact get_new_messages_pairwise _ _ _ _
  · rw [check_token_fail cfg flt mailbox s now (bool_eq_false hok)]; simp

lemma check_proc_trace_mem {cfg : Config} {flt : CycleFaults} {mailbox : List Message}
    {s : ReaderState} {now : Nat} {m : Message} {e : Event}
    (hm : m ∈ (check_for_new_emails cfg flt mailbox s now).2.1)
    (he : e ∈ process_message cfg (flt.attFails m.id) (flt.fwd m.id) m) :
    e ∈ (check_for_new_emails cfg flt mailbox s now).2.2 := by
  by_cases hok : (ensure_token s.access_token flt.auth).2.1 = true
  · by_cases hq : flt.queryFails = true
    · rw [check_query_fail cfg flt mailbox s now hok hq] at hm; simp at hm
    · rw [check_success cfg flt mailbox s now hok (bool_eq_false hq)] at hm ⊢
      simp only [List.mem_append] at hm ⊢
      right
      exact mem_flatTraces.mpr ⟨_, List.mem_map.mpr ⟨m, hm, rfl⟩, he⟩
  · rw [check_token_fail cfg flt mailbox s now (bool_eq_false hok)] at hm; simp at hm

lemma head_newest {m0 : Message} {rest : List Message}
    (h : (m0 :: rest).Pairwise geMsg) :
    ∀ m ∈ m0 :: rest, m.receivedDateTime ≤ m0.receivedDateTime := by
  intro m hm
  rcases List.mem_cons.mp hm with rfl | hm2
  · exact le_refl _
  · exact (List.pairwise_cons.mp h).1 m hm2

lemma run_cycles_length (cfg : Config) (inputs : List CycleInput) :
    ∀ s : ReaderState, ((run_cycles cfg s inputs).2.1).length = inputs.length := by
  induction inputs with
  | nil => intro s; rfl
  | cons i rest ih =>
      intro s
      simp only [run_cycles, List.length_cons]
      rw [ih]

lemma ensure_fail_of {tok : Option String} {a : AuthOutcome}
    (h1 : pyTruthyStr tok = false) (h2 : (get_access_token tok a).2 = false) :
    (ensure_token tok a).2.1 = false := by
  unfold ensure_token
  rw [if_neg (by rw [h1]; exact Bool.false_ne_true)]
  exact h2

lemma get_new_messages_none (mailbox : List Message) (now limit : Nat) :
    (get_new_messages none mailbox now limit).2 = (sortDesc mailbox).take limit := by
  unfold get_new_messages
  rw [process_response_snd]
  rfl

/-! Claim theorems. -/

/-- C2, counterexample: save_last_email_timestamp writes the tracking file by
an in-place truncate (open in mode w) followed by the record write, so the
save interrupted after its first file operation leaves the file truncated
empty: the previously persisted valid cursor is lost and the next load
degrades to the no-cursor state. This refutes the claimed write-then-rename
protocol under which no interrupted save loses the previous cursor. -/
theorem C2_counterexample :
    applyTrackOps (some (TrackContent.record cW)) ((save_track_ops mW2 9).take 1)
        = some TrackContent.empty ∧
    some TrackContent.empty ≠ some (TrackContent.record cW) ∧
    load_last_email_timestamp (some TrackContent.empty) = (none, none) := by
  refine ⟨rfl, by decide, rfl⟩

/-- C2, amended: saving the cursor persists the record built from the newest
message and the wall clock by truncating the tracking file in place and then
writing the record — not by write-then-rename; a completed save leaves exactly
the new record, while a save interrupted between the truncate and the write
leaves the file empty, losing the previously persisted cursor. -/
theorem C2_amended_save_protocol (fs : Option TrackContent) (m : Message) (now : Nat) :
    save_track_ops m now = [TrackOp.truncate, TrackOp.writeRecord (mkCursor m now)] ∧
    applyTrackOps fs (save_track_ops m now) = some (TrackContent.record (mkCursor m now)) ∧
    applyTrackOps fs ((save_track_ops m now).take 1) = some TrackContent.empty :=
  ⟨rfl, rfl, rfl⟩

/-- C3: for every query response and every stored cursor whose id is a real
(non-empty) message id, the client removes from the response every message
whose id equals the stored last_message_id, regardless of its timestamp; and
when the response consists solely of the already-processed message (the
timestamp-tie scenario) the filtered result is empty and the tracking file is
left unchanged. -/
theorem C3_collision_filter (c : Cursor) (resp : List Message) (now : Nat)
    (hid : c.last_message_id ≠ "") :
    (∀ m ∈ (process_response (some (TrackContent.record c)) resp now).2,
        m.id ≠ c.last_message_id) ∧
    ∀ m, resp = [m] → m.id = c.last_message_id →
      process_response (some (TrackContent.record c)) resp now
        = (some (TrackContent.record c), []) := by
  constructor
  · intro m hm
    rw [process_response_snd] at hm
    exact mem_dropLastId_ne hid hm
  · intro m hresp hm
    subst hresp
    have hd : dropLastId (load_last_email_timestamp (some (TrackContent.record c))).2 [m]
        = [] := by
      show dropLastId (some c.last_message_id) [m] = []
      rw [dropLastId, if_pos (by simp [isEmpty_false_of_ne hid])]
      simp [hm]
    simp only [process_response, hd]

/-- C3 witness: the tie scenario at a concrete cursor and response. -/
theorem C3_witness :
    cW.last_message_id ≠ "" ∧
    process_response (some (TrackContent.record cW)) [mW1] 9
      = (some (TrackContent.record cW), []) :=
  ⟨by decide, (C3_collision_filter cW [mW1] 9 (by decide)).2 mW1 rfl (by decide)⟩

/-- C6: when forwarding is disabled, or no relay host is configured, or the
normalized recipient list is empty, forward_message returns immediately with
an empty operation trace (no MIME fetch, no SMTP connection) and the NoOp
outcome, not an error. -/
theorem C6_disabled_forward_noop (cfg : Config) (ff : ForwardFaults) (msg : Message)
    (h : cfg.ENABLE_SMTP_FORWARD = false ∨ cfg.SMTP_HOST = "" ∨
      normalize_recipients cfg.SMTP_TO = []) :
    forward_message cfg ff msg = ([], FwdOutcome.noop) := by
  have h0 : (!cfg.ENABLE_SMTP_FORWARD || cfg.SMTP_HOST.isEmpty ||
      (normalize_recipients cfg.SMTP_TO).isEmpty) = true := by
    rcases h with h | h | h
    · rw [h]; rfl
    · rw [h]
      have he : ("" : String).isEmpty = true := rfl
      simp [he]
    · rw [h]; simp
  simp [forward_message, h0]

/-- C6 witness: forwarding disabled at a concrete configuration and message. -/
theorem C6_witness :
    (cfgWoff.ENABLE_SMTP_FORWARD = false ∨ cfgWoff.SMTP_HOST = "" ∨
      normalize_recipients cfgWoff.SMTP_TO = []) ∧
    forward_message cfgWoff noFaults mW1 = ([], FwdOutcome.noop) :=
  ⟨Or.inl rfl, C6_disabled_forward_noop cfgWoff noFaults mW1 (Or.inl rfl)⟩

/-- C10: with a stored cursor, a message whose receivedDateTime exactly equals
the stored timestamp is excluded by the strict server-side gt filter and is
never returned as new, whatever its id; and the client-side collision filter
only ever removes messages bearing the stored last_message_id — any message
removed by it from a response carries exactly that id. -/
theorem C10_strict_timestamp_filter (c : Cursor) (mailbox : List Message) (now limit : Nat)
    (m : Message) (h1 : m ∈ mailbox) (h2 : m.receivedDateTime = c.last_received_datetime)
    (h3 : m.id ≠ c.last_message_id) :
    m ∉ (get_new_messages (some (TrackContent.record c)) mailbox now limit).2 ∧
    ∀ resp : List Message, ∀ m2 ∈ resp,
      m2 ∉ (process_response (some (TrackContent.record c)) resp now).2 →
        m2.id = c.last_message_id := by
  constructor
  · intro hm
    have hlt := (get_new_messages_mem hm).2 c rfl
    omega
  · intro resp m2 hm2 hnot
    rw [process_response_snd] at hnot
    have hrem := removed_by_dropLastId hm2 hnot
    exact (Option.some.inj hrem).symm

/-- C10 witness: a timestamp-tied message with a different id is silently
skipped at a concrete cursor and mailbox. -/
theorem C10_witness :
    (mW3 ∈ [mW3, mW2] ∧ mW3.receivedDateTime = cW.last_received_datetime ∧
      mW3.id ≠ cW.last_message_id) ∧
    mW3 ∉ (get_new_messages (some (TrackContent.record cW)) [mW3, mW2] 9 50).2 :=
  ⟨⟨by decide, by decide, by decide⟩,
    (C10_strict_timestamp_filter cW [mW3, mW2] 9 50 mW3 (by decide) (by decide)
      (by decide)).1⟩

/-- C4: the persisted cursor timestamp is monotonically non-decreasing across
any sequence of cycles — whenever a valid cursor holds timestamp t and any run
of cycles leaves a valid cursor with timestamp u, t is at most u — and each
write records the batch head, which is the newest message of the batch. -/
theorem C4_cursor_monotone (cfg : Config) (s : ReaderState) (inputs : List CycleInput)
    (t u : Nat) (h1 : trackTs s.tracking = some t)
    (h2 : trackTs (run_cycles cfg s inputs).1.tracking = some u) :
    t ≤ u ∧
    ∀ (flt : CycleFaults) (mailbox : List Message) (now : Nat) (m0 : Message)
      (rest : List Message),
      (check_for_new_emails cfg flt mailbox s now).2.1 = m0 :: rest →
        (check_for_new_emails cfg flt mailbox s now).1.tracking
            = some (TrackContent.record (mkCursor m0 now)) ∧
          ∀ m ∈ m0 :: rest, m.receivedDateTime ≤ m0.receivedDateTime := by
  constructor
  · rcases trackTs_mono_run cfg inputs s t h1 with ⟨v, hv, htv⟩
    rw [h2] at hv
    rw [Option.some.inj hv]
    exact htv
  · intro flt mailbox now m0 rest hbatch
    refine ⟨check_batch_cons hbatch, ?_⟩
    have hp := check_batch_pairwise cfg flt mailbox s now
    rw [hbatch] at hp
    exact head_newest hp

/-- C4 witness: a concrete cycle advances the stored timestamp from 100 to 200. -/
theorem C4_witness :
    trackTs sW1.tracking = some 100 ∧
    trackTs (run_cycles cfgW sW1 [inW1]).1.tracking = some 200 ∧
    100 ≤ 200 :=
  ⟨by decide, by decide,
    (C4_cursor_monotone cfgW sW1 [inW1] 100 200 (by decide) (by decide)).1⟩

/-- C7: the token guard of a cycle acquires a token exactly when the held one
is Python-falsy; a cycle never acquires twice, even when the query fails
downstream (no automatic reacquisition or retry); a held token survives the
cycle unchanged; and any later cycle starting with a held token performs no
acquisition, reusing the token across cycles. -/
theorem C7_lazy_token_acquisition (cfg : Config) (flt : CycleFaults)
    (mailbox : List Message) (s : ReaderState) (now : Nat) :
    (Event.acquireToken ∈ (check_for_new_emails cfg flt mailbox s now).2.2
        ↔ pyTruthyStr s.access_token = false) ∧
    ((check_for_new_emails cfg flt mailbox s now).2.2).count Event.acquireToken ≤ 1 ∧
    (pyTruthyStr s.access_token = true →
      (check_for_new_emails cfg flt mailbox s now).1.access_token = s.access_token) ∧
    ∀ (flt2 : CycleFaults) (mailbox2 : List Message) (now2 : Nat),
      pyTruthyStr ((check_for_new_emails cfg flt mailbox s now).1.access_token) = true →
        Event.acquireToken ∉
          (check_for_new_emails cfg flt2 mailbox2
            (check_for_new_emails cfg flt mailbox s now).1 now2).2.2 := by
  rcases check_trace_split cfg flt mailbox s now with ⟨rest, htr, hrest⟩
  refine ⟨?_, ?_, ?_, ?_⟩
  · constructor
    · intro hmem
      by_cases hp : pyTruthyStr s.access_token = true
      · exfalso
        rw [htr, ensure_of_truthy (a := flt.auth) hp] at hmem
        exact hrest (by simpa using hmem)
      · exact bool_eq_false hp
    · intro hp
      rw [htr, ensure_trace_falsy (a := flt.auth) hp]
      simp
  · rw [htr, List.count_append, List.count_eq_zero.mpr hrest]
    by_cases hp : pyTruthyStr s.access_token = true
    · rw [ensure_of_truthy (a := flt.auth) hp]
      simp
    · rw [ensure_trace_falsy (a := flt.auth) (bool_eq_false hp)]
      simp
  · intro hp
    rw [check_access_token, ensure_of_truthy (a := flt.auth) hp]
  · intro flt2 mailbox2 now2 hp hmem
    rcases check_trace_split cfg flt2 mailbox2
        (check_for_new_emails cfg flt mailbox s now).1 now2 with ⟨rest2, htr2, hrest2⟩
    rw [htr2, ensure_of_truthy (a := flt2.auth) hp] at hmem
    exact hrest2 (by simpa using hmem)

/-- C7 witness: the first cycle from a fresh state acquires a token; the
second cycle, holding it, does not. -/
theorem C7_witness :
    Event.acquireToken ∈ (check_for_new_emails cfgW fltW [mW1] sW0 7).2.2 ∧
    pyTruthyStr (check_for_new_emails cfgW fltW [mW1] sW0 7).1.access_token = true ∧
    Event.acquireToken ∉
      (check_for_new_emails cfgW fltW [mW1]
        (check_for_new_emails cfgW fltW [mW1] sW0 7).1 9).2.2 :=
  ⟨((C7_lazy_token_acquisition cfgW fltW [mW1] sW0 7).1).mpr (by decide),
    by decide,
    ((C7_lazy_token_acquisition cfgW fltW [mW1] sW0 7).2.2.2) fltW [mW1] 9 (by decide)⟩

/-- C8: a cycle whose token exchange or messages request fails yields an empty
batch (the error is caught at cycle granularity); every cycle of a run
executes, whatever earlier cycles did, so the loop never gives up; in
continuous mode the process exits 0 on user cancellation and 1 exactly on an
unexpected error escaping the loop, and a single-pass run exits 0. -/
theorem C8_cycle_error_containment (cfg : Config) (s : ReaderState)
    (inputs : List CycleInput) :
    (∀ (flt : CycleFaults) (mailbox : List Message) (s1 : ReaderState) (now : Nat),
        tokenFailure s1 flt ∨ flt.queryFails = true →
          (check_for_new_emails cfg flt mailbox s1 now).2.1 = []) ∧
    ((run_cycles cfg s inputs).2.1).length = inputs.length ∧
    (cfg.ENABLE_CONTINUOUS_LOOP = true →
      (main_run cfg s inputs RunEnd.interrupt).1 = 0 ∧
      (main_run cfg s inputs RunEnd.fatal).1 = 1) ∧
    (cfg.ENABLE_CONTINUOUS_LOOP = false →
      ∀ ending : RunEnd, (main_run cfg s inputs ending).1 = 0) := by
  refine ⟨?_, run_cycles_length cfg inputs s, ?_, ?_⟩
  · intro flt mailbox s1 now h
    rcases h with ⟨hp, hacq⟩ | hq
    · rw [check_token_fail cfg flt mailbox s1 now (ensure_fail_of hp hacq)]
    · by_cases hok : (ensure_token s1.access_token flt.auth).2.1 = true
      · rw [check_query_fail cfg flt mailbox s1 now hok hq]
      · rw [check_token_fail cfg flt mailbox s1 now (bool_eq_false hok)]
  · intro hc
    constructor
    · simp only [main_run, hc, if_true]
    · simp only [main_run, hc, if_true]
  · intro hc ending
    simp only [main_run, hc, Bool.false_eq_true, if_false]
    cases inputs with
    | nil => rfl
    | cons i rest => rfl

/-- C8 witness: a failing query yields an empty batch; exit codes at a
concrete continuous run. -/
theorem C8_witness :
    (tokenFailure sW1 fltWq ∨ fltWq.queryFails = true) ∧
    (check_for_new_emails cfgW fltWq [mW2] sW1 7).2.1 = [] ∧
    cfgW.ENABLE_CONTINUOUS_LOOP = true ∧
    (main_run cfgW sW0 [inW1] RunEnd.interrupt).1 = 0 ∧
    (main_run cfgW sW0 [inW1] RunEnd.fatal).1 = 1 :=
  ⟨Or.inr rfl,
    (C8_cycle_error_containment cfgW sW0 [inW1]).1 fltWq [mW2] sW1 7 (Or.inr rfl),
    rfl,
    ((C8_cycle_error_containment cfgW sW0 [inW1]).2.2.1 rfl).1,
    ((C8_cycle_error_containment cfgW sW0 [inW1]).2.2.1 rfl).2⟩

/-- C5: forwarding failures are isolated per message — every message of a
batch is displayed, and, when forwarding is configured, has its forward
attempted (the MIME fetch occurs) regardless of the faults of any other message; a
message whose forward faults at any stage gets a logged failure in the trace
rather than an escaping exception; the resulting state of the cycle is identical
under any per-message fault assignment, so forward failures never block
cursor advancement; and a non-empty batch always advances the cursor to the
newest (head) message of the batch. -/
theorem C5_forward_isolation (cfg : Config) (flt flt2 : CycleFaults)
    (mailbox : List Message) (s : ReaderState) (now : Nat)
    (hact : forwardingActive cfg)
    (ha : flt2.auth = flt.auth) (hqf : flt2.queryFails = flt.queryFails) :
    (∀ m ∈ (check_for_new_emails cfg flt mailbox s now).2.1,
        Event.display m.id ∈ (check_for_new_emails cfg flt mailbox s now).2.2) ∧
    (∀ m ∈ (check_for_new_emails cfg flt mailbox s now).2.1, m.id ≠ "" →
        Event.fetchMime m.id ∈ (check_for_new_emails cfg flt mailbox s now).2.2) ∧
    (∀ m ∈ (check_for_new_emails cfg flt mailbox s now).2.1, m.id ≠ "" →
        effectiveFault cfg (flt.fwd m.id) = true →
          Event.forwardFailLogged m.id
            ∈ (check_for_new_emails cfg flt mailbox s now).2.2) ∧
    (check_for_new_emails cfg flt2 mailbox s now).1
        = (check_for_new_emails cfg flt mailbox s now).1 ∧
    ∀ m0 rest, (check_for_new_emails cfg flt mailbox s now).2.1 = m0 :: rest →
      (check_for_new_emails cfg flt mailbox s now).1.tracking
        = some (TrackContent.record (mkCursor m0 now)) := by
  refine ⟨?_, ?_, ?_, check_state_eq cfg flt flt2 mailbox s now ha hqf, ?_⟩
  · intro m hm
    exact check_proc_trace_mem hm (by simp [process_message])
  · intro m hm hid
    refine check_proc_trace_mem hm ?_
    simp only [process_message, List.mem_cons, List.mem_append]
    right; right
    exact forward_fetch_mem cfg _ m hact hid
  · intro m hm hid hf
    refine check_proc_trace_mem hm ?_
    simp only [process_message, List.mem_cons, List.mem_append]
    right; right
    exact (forward_fail_logged cfg _ m hact hid hf).1
  · intro m0 rest hb
    exact check_batch_cons hb

/-- C5 witness: with every SMTP send failing, the single message of a batch
still gets its failure logged in the cycle trace. -/
theorem C5_witness :
    (forwardingActive cfgW ∧ fltW.auth = fltWsend.auth ∧
      fltW.queryFails = fltWsend.queryFails) ∧
    mW1 ∈ (check_for_new_emails cfgW fltWsend [mW1] sW0 7).2.1 ∧
    effectiveFault cfgW (fltWsend.fwd mW1.id) = true ∧
    Event.forwardFailLogged mW1.id
      ∈ (check_for_new_emails cfgW fltWsend [mW1] sW0 7).2.2 :=
  ⟨⟨⟨rfl, by decide, by decide⟩, rfl, rfl⟩, by decide, by decide,
    (C5_forward_isolation cfgW fltWsend fltW [mW1] sW0 7 ⟨rfl, by decide, by decide⟩
      rfl rfl).2.2.1 mW1 (by decide) (by decide) (by decide)⟩

/-- C1, counterexample: on the very first cycle, before any cursor has ever
been written, the message m1 — already present in the mailbox — is returned
as new and submitted for SMTP forwarding. This refutes the claim that no
message of the historical backlog is forwarded and that forwarding only ever
happens for messages arriving after the first cursor write. -/
theorem C1_counterexample :
    sW0.tracking = none ∧
    (check_for_new_emails cfgW fltW [mW1] sW0 7).2.1 = [mW1] ∧
    Event.smtpSend "m1" ∈ (check_for_new_emails cfgW fltW [mW1] sW0 7).2.2 :=
  ⟨rfl, by decide, by decide⟩

/-- C1, amended: on a first run with no stored cursor the query is issued
unfiltered with top 50, the batch returned as new is exactly the most recent
50 messages of the mailbox (newest first) — the historical backlog IS treated
as new, each such message having its forward attempted when forwarding is
configured — and the first cursor is then written from the newest of them;
only cycles after that filter strictly beyond the stored cursor. -/
theorem C1_amended_first_run (cfg : Config) (flt : CycleFaults) (mailbox : List Message)
    (s : ReaderState) (now : Nat)
    (htrack : s.tracking = none)
    (hok : (ensure_token s.access_token flt.auth).2.1 = true)
    (hq : flt.queryFails = false)
    (hact : forwardingActive cfg) :
    Event.queryRequest (buildParams none 50)
        ∈ (check_for_new_emails cfg flt mailbox s now).2.2 ∧
    (check_for_new_emails cfg flt mailbox s now).2.1 = (sortDesc mailbox).take 50 ∧
    (∀ m ∈ (check_for_new_emails cfg flt mailbox s now).2.1, m.id ≠ "" →
        Event.fetchMime m.id ∈ (check_for_new_emails cfg flt mailbox s now).2.2) ∧
    ∀ m0 rest, (check_for_new_emails cfg flt mailbox s now).2.1 = m0 :: rest →
      (check_for_new_emails cfg flt mailbox s now).1.tracking
        = some (TrackContent.record (mkCursor m0 now)) := by
  have hcs := check_success cfg flt mailbox s now hok hq
  refine ⟨?_, ?_, ?_, ?_⟩
  · rw [hcs, htrack]
    simp [List.mem_append, load_last_email_timestamp]
  · rw [hcs]
    show (get_new_messages s.tracking mailbox now 50).2 = _
    rw [htrack, get_new_messages_none]
  · intro m hm hid
    refine check_proc_trace_mem hm ?_
    simp only [process_message, List.mem_cons, List.mem_append]
    right; right
    exact forward_fetch_mem cfg _ m hact hid
  · intro m0 rest hb
    exact check_batch_cons hb

/-- C1 witness: a concrete first run over a two-message mailbox returns the
whole backlog newest-first. -/
theorem C1_witness :
    (sW0.tracking = none ∧ (ensure_token sW0.access_token fltW.auth).2.1 = true ∧
      fltW.queryFails = false ∧ forwardingActive cfgW) ∧
    (check_for_new_emails cfgW fltW [mW1, mW2] sW0 7).2.1
      = (sortDesc [mW1, mW2]).take 50 :=
  ⟨⟨rfl, by decide, rfl, ⟨rfl, by decide, by decide⟩⟩,
    (C1_amended_first_run cfgW fltW [mW1, mW2] sW0 7 rfl (by decide) rfl
      ⟨rfl, by decide, by decide⟩).2.1⟩

/-- C9: whenever the batch of a cycle is non-empty, the trace of the cycle writes
the cursor (recording the batch head) strictly before any display or
forwarding event — everything preceding the save is the token guard and the
query request — and consequently no message of the batch is ever part of any
later batch, whatever the later mailboxes and faults (so none is
returned or forwarded again even if the process stops or every forward
fails). -/
theorem C9_cursor_saved_before_processing (cfg : Config) (flt : CycleFaults)
    (mailbox : List Message) (s : ReaderState) (now : Nat) (m0 : Message)
    (rest : List Message)
    (h : (check_for_new_emails cfg flt mailbox s now).2.1 = m0 :: rest) :
    (∃ pre post, (check_for_new_emails cfg flt mailbox s now).2.2
        = pre ++ Event.cursorSave (mkCursor m0 now) :: post ∧
      ∀ e ∈ pre, e = Event.acquireToken ∨
        e = Event.queryRequest (buildParams (load_last_email_timestamp s.tracking).1 50)) ∧
    ∀ m ∈ m0 :: rest, ∀ inputs : List CycleInput,
      ∀ batch ∈ (run_cycles cfg (check_for_new_emails cfg flt mailbox s now).1 inputs).2.1,
        m ∉ batch := by
  constructor
  · by_cases hok : (ensure_token s.access_token flt.auth).2.1 = true
    · by_cases hq : flt.queryFails = true
      · rw [check_query_fail cfg flt mailbox s now hok hq] at h
        simp at h
      · have hcs := check_success cfg flt mailbox s now hok (bool_eq_false hq)
        have h2 : (get_new_messages s.tracking mailbox now 50).2 = m0 :: rest := by
          rw [hcs] at h
          exact h
        refine ⟨(ensure_token s.access_token flt.auth).2.2 ++
            [Event.queryRequest (buildParams (load_last_email_timestamp s.tracking).1 50)],
          flatTraces ((get_new_messages s.tracking mailbox now 50).2.map (fun m =>
            process_message cfg (flt.attFails m.id) (flt.fwd m.id) m)), ?_, ?_⟩
        · rw [hcs]
          show _ ++ _ ++ _ ++ _ = _
          rw [h2]
          simp [List.append_assoc]
        · intro e he
          rcases List.mem_append.mp he with he1 | he2
          · rcases @ensure_trace s.access_token flt.auth with h0 | h0 <;>
              rw [h0] at he1
            · simp at he1
            · left; simpa using he1
          · right; simpa using he2
    · rw [check_token_fail cfg flt mailbox s now (bool_eq_false hok)] at h
      simp at h
  · intro m hm inputs batch hb hmb
    have hpair := check_batch_pairwise cfg flt mailbox s now
    rw [h] at hpair
    have hle : m.receivedDateTime ≤ m0.receivedDateTime := head_newest hpair m hm
    have htrack2 : trackTs (check_for_new_emails cfg flt mailbox s now).1.tracking
        = some m0.receivedDateTime := by
      rw [check_batch_cons h]
      rfl
    have hgt := run_batches_gt cfg inputs _ m0.receivedDateTime htrack2 batch hb m hmb
    omega

/-- C9 witness: after the first cycle returned message m1, a later cycle over
a grown mailbox returns only the genuinely newer message, never m1 again. -/
theorem C9_witness :
    ((check_for_new_emails cfgW fltW [mW1] sW0 7).2.1 = mW1 :: [] ∧
      mW1 ∈ mW1 :: ([] : List Message) ∧
      [mW2] ∈ (run_cycles cfgW (check_for_new_emails cfgW fltW [mW1] sW0 7).1
        [inW2]).2.1) ∧
    mW1 ∉ [mW2] :=
  ⟨⟨by decide, by decide, by decide⟩,
    (C9_cursor_saved_before_processing cfgW fltW [mW1] sW0 7 mW1 [] (by decide)).2
      mW1 (by decide) [inW2] [mW2] (by decide)⟩

end O365Mail
